import Mathlib

/-!
Verification development for the DEEPFAKE-GUARDIAN repository.

The embedding covers the two source files:
- `src/server/server.js` — the Express server: the `/api/v1/analyze`,
  `/api/v1/global-scan`, `/api/v1/websites` and `/api/v1/scan-results` handlers.
- `src/unnamed/part_000` — the React client (`LegalOptions` / `ScanOverlay`):
  `normalizeUrl`, the poll-merge into `resultsMap`, the stats update and the
  progress-percentage computation.

JavaScript strings are modelled as Lean `String` / `List Char`; JSON documents
as the inductive `Json` below, with objects as insertion-ordered association
lists (duplicate keys collapse, last write wins, as in JS); JS numbers as `ℚ`
(IEEE-754 rounding is not modelled; none of the verified claims depends on it).
-/

/-- JSON values as produced by `JSON.parse` / consumed by `res.json`.
Objects carry their fields as an insertion-ordered association list with
distinct keys. -/
inductive Json where
  | null : Json
  | bool : Bool → Json
  | num : ℚ → Json
  | str : String → Json
  | arr : List Json → Json
  | obj : List (String × Json) → Json

/-- Lookup of a field in an object's field list (first match). -/
def jlookup : List (String × Json) → String → Option Json
  | [], _ => none
  | (k', v) :: t, k => if k' = k then some v else jlookup t k

/-- Property access `v[k]` on a JSON value: `none` models JS `undefined`
(missing field, or property access on a non-object primitive).  Access on
`null` throws in JS; the callers below that can receive `null` model the
throw explicitly (`elemThrows`). -/
def jget : Json → String → Option Json
  | .obj fields, k => jlookup fields k
  | _, _ => none

/-- Setting a field on a JS object: overwrites in place if the key exists
(keeping its position), appends otherwise.  This is both `resultsMap[key] = r`
on the client and the object-literal / `JSON.parse` duplicate-key semantics. -/
def objInsert : List (String × Json) → String → Json → List (String × Json)
  | [], k, v => [(k, v)]
  | (k', v') :: t, k, v => if k' = k then (k', v) :: t else (k', v') :: objInsert t k v

/-- JS truthiness of a JSON value (`NaN` does not arise: `ℚ` has no `NaN`). -/
def truthy : Json → Bool
  | .null => false
  | .bool b => b
  | .num q => q != 0
  | .str s => s != ""
  | .arr _ => true
  | .obj _ => true

/-- JS truthiness of a possibly-`undefined` value (`none` = `undefined`, falsy). -/
def truthyOpt : Option Json → Bool
  | none => false
  | some j => truthy j

/-- `data.summary?.total_scanned`-style double access: optional chaining yields
`undefined` when the outer field is missing, `null`, or a primitive. -/
def jget2 (v : Json) (k1 k2 : String) : Option Json :=
  match jget v k1 with
  | some inner => jget inner k2
  | none => none

/-- If `p` is a prefix of `cs`, return the remainder, else `none`.
Models matching a literal regex prefix. -/
def dropPfx : List Char → List Char → Option (List Char)
  | [], cs => some cs
  | _ :: _, [] => none
  | a :: as, b :: bs => if a = b then dropPfx as bs else none

/-- Stripping the trailing slash: the `url.replace(/\/$/, '')` step of the
client's `normalizeUrl` (`src/unnamed/part_000` line 193).  The regex removes
exactly one `/` at the end of the string, if present. -/
def stripSlashChars (cs : List Char) : List Char :=
  if cs.getLast? = some '/' then cs.dropLast else cs

/-- Stripping the scheme and optional `www.`: the
`url.replace(/^https?:\/\/(www\.)?/, '')` step of the client's `normalizeUrl`
(`src/unnamed/part_000` line 193).  The regex is anchored at the start, the
scheme part is mandatory and the `www.` group is greedy, so exactly one of the
four concrete prefixes below is removed (longest-first within each scheme);
a bare `www.` without a scheme is NOT removed. -/
def stripSchemeWww (cs : List Char) : List Char :=
  match dropPfx "https://www.".data cs with
  | some r => r
  | none =>
    match dropPfx "http://www.".data cs with
    | some r => r
    | none =>
      match dropPfx "https://".data cs with
      | some r => r
      | none =>
        match dropPfx "http://".data cs with
        | some r => r
        | none => cs

/-- The client's `normalizeUrl` (`src/unnamed/part_000` lines 191–194):
`if (!url) return ''; return url.replace(/\/$/, '').replace(/^https?:\/\/(www\.)?/, '');`.
The `!url` guard is the empty-string (and `undefined`) check; the caller-side
`undefined` case is handled at the call sites (`sourceKey`). -/
def normalizeUrl (s : String) : String :=
  if s = "" then "" else String.mk (stripSchemeWww (stripSlashChars s.data))

/-- The key under which a scan-result record is merged:
`normalizeUrl(r.source_url)` (`src/unnamed/part_000` line 208).  A missing or
falsy `source_url` hits the `!url` branch of `normalizeUrl` and yields `''`.
(A truthy non-string `source_url` would make the JS callback throw; such
elements are modelled by `elemThrows` below and never reach this function in
`pollStep`.) -/
def sourceKey (r : Json) : String :=
  match jget r "source_url" with
  | some (.str s) => normalizeUrl s
  | _ => ""

/-- `r.prediction === 'Fake'` (`src/unnamed/part_000` line 209): strict
equality, true only for the exact string `"Fake"`. -/
def isFakeRec (r : Json) : Bool :=
  match jget r "prediction" with
  | some (.str s) => s == "Fake"
  | _ => false

/-- One iteration of the client's poll-merge loop
(`src/unnamed/part_000` lines 206–212):
`if (!resultsMap[key] || r.prediction === 'Fake') resultsMap[key] = r;`. -/
def mergeStep (m : List (String × Json)) (r : Json) : List (String × Json) :=
  let k := sourceKey r
  if !truthyOpt (jlookup m k) || isFakeRec r then objInsert m k r else m

/-- The full merge of a results set into the fresh `resultsMap`
(`src/unnamed/part_000` lines 205–212): a left fold of `mergeStep` over
`data.all_results`, starting from the empty map. -/
def mergeResults (rs : List Json) : List (String × Json) :=
  rs.foldl mergeStep []

/-- An `all_results` element on which the JS merge callback would throw a
`TypeError`: a `null` element (`null.source_url` throws) or an element whose
`source_url` is a truthy non-string (no `.replace` method).  The throw
propagates out of `forEach` before `setScanResults` runs, so the poll leaves
the client state unchanged; the rejection is swallowed by the poll's
`.catch(console.error)`. -/
def elemThrows (r : Json) : Bool :=
  match r with
  | .null => true
  | _ =>
    match jget r "source_url" with
    | some (.str _) => false
    | some v => truthy v
    | none => false

/-- `x || 0` applied to `data.summary?.total_scanned` (and `deepfakes_found`),
read off as a number (`src/unnamed/part_000` lines 214–217).  Numeric and
falsy values are modelled exactly; a truthy non-numeric summary field (which
JS would keep, poisoning later arithmetic) is outside this model and mapped
to 0 — no verified claim exercises that corner. -/
def jsNumOr0 : Option Json → ℚ
  | some (.num q) => q
  | _ => 0

/-- The client state touched by the poll: the merged `scanResults` map and the
`stats` pair (`src/unnamed/part_000` lines 164–165). -/
structure ClientState where
  scanResults : List (String × Json)
  statsTotal : ℚ
  statsFound : ℚ

/-- One poll tick of the `ScanOverlay` (`src/unnamed/part_000` lines 203–218):
the parsed response body `data` updates the state only when
`data.success && data.all_results` is truthy; the merge then rebuilds
`resultsMap` from scratch and both `setScanResults` and `setStats` run after
the `forEach` completes.  A truthy non-array `all_results` (no `.forEach`),
or an element on which the callback throws, aborts before any `set*` call,
leaving the state unchanged. -/
def pollStep (st : ClientState) (data : Json) : ClientState :=
  if truthyOpt (jget data "success") && truthyOpt (jget data "all_results") then
    match jget data "all_results" with
    | some (.arr xs) =>
      if xs.any elemThrows then st
      else
        { scanResults := mergeResults xs,
          statsTotal := jsNumOr0 (jget2 data "summary" "total_scanned"),
          statsFound := jsNumOr0 (jget2 data "summary" "deepfakes_found") }
    | _ => st
  else st

/-- The overlay's progress computation (`src/unnamed/part_000` line 236):
`websites.length > 0 ? (stats.total / websites.length) * 100 : 0`.
No clamping is applied. -/
def progressPercentage (websites : List String) (statsTotal : ℚ) : ℚ :=
  if websites.length > 0 then statsTotal / (websites.length : ℚ) * 100 else 0

/-- JSON-grammar whitespace (`space`, `tab`, `newline`, `carriage return`),
as skipped by `JSON.parse`. -/
def jsonWs (c : Char) : Bool :=
  c == ' ' || c == '\t' || c == '\n' || c == '\r'

/-- Skip JSON whitespace. -/
def skipWs (cs : List Char) : List Char :=
  cs.dropWhile jsonWs

/-- Decimal digit test. -/
def isDigitB (c : Char) : Bool :=
  '0' ≤ c && c ≤ '9'

/-- Value of a hexadecimal digit, if any. -/
def hexVal (c : Char) : Option Nat :=
  if '0' ≤ c && c ≤ '9' then some (c.toNat - 48)
  else if 'a' ≤ c && c ≤ 'f' then some (c.toNat - 87)
  else if 'A' ≤ c && c ≤ 'F' then some (c.toNat - 55)
  else none

/-- Digits to the natural number they denote (most significant first). -/
def digitsToNat (ds : List Char) : Nat :=
  ds.foldl (fun n c => n * 10 + (c.toNat - 48)) 0

/-- Body of a JSON string literal, after the opening quote: returns the
decoded characters and the input remaining after the closing quote.
Escapes are decoded as in `JSON.parse`; a `\uXXXX` escape naming a surrogate
code unit (unrepresentable as a Lean `Char`) falls back to `Char.ofNat`'s
default — no verified claim depends on parsed string contents. -/
def parseJString : List Char → Option (List Char × List Char)
  | [] => none
  | '"' :: rest => some ([], rest)
  | '\\' :: e :: rest =>
    match e with
    | '"' => (parseJString rest).map fun (s, r) => ('"' :: s, r)
    | '\\' => (parseJString rest).map fun (s, r) => ('\\' :: s, r)
    | '/' => (parseJString rest).map fun (s, r) => ('/' :: s, r)
    | 'b' => (parseJString rest).map fun (s, r) => (Char.ofNat 8 :: s, r)
    | 'f' => (parseJString rest).map fun (s, r) => (Char.ofNat 12 :: s, r)
    | 'n' => (parseJString rest).map fun (s, r) => ('\n' :: s, r)
    | 'r' => (parseJString rest).map fun (s, r) => ('\r' :: s, r)
    | 't' => (parseJString rest).map fun (s, r) => ('\t' :: s, r)
    | 'u' =>
      match rest with
      | h1 :: h2 :: h3 :: h4 :: rest' =>
        match hexVal h1, hexVal h2, hexVal h3, hexVal h4 with
        | some a, some b, some c, some d =>
          (parseJString rest').map fun (s, r) =>
            (Char.ofNat (((a * 16 + b) * 16 + c) * 16 + d) :: s, r)
        | _, _, _, _ => none
      | _ => none
    | _ => none
  | c :: rest =>
    if c.toNat ≥ 32 then (parseJString rest).map fun (s, r) => (c :: s, r)
    else none

/-- A JSON number (sign, integer part with no leading zeros, optional
fraction, optional exponent), returning its exact rational value and the
remaining input.  After a leading `0` no further digits are consumed, as in
the JSON grammar; the surrounding parser then rejects the leftover. -/
def parseJNumber (cs : List Char) : Option (ℚ × List Char) :=
  let (neg, cs1) := match cs with
    | '-' :: t => (true, t)
    | _ => (false, cs)
  let intPart : Option (List Char × List Char) := match cs1 with
    | '0' :: t => some (['0'], t)
    | c :: t => if isDigitB c && c != '0'
        then some (c :: t.takeWhile isDigitB, t.dropWhile isDigitB)
        else none
    | [] => none
  match intPart with
  | none => none
  | some (intD, rest1) =>
    let fracStep : Option (List Char × List Char) := match rest1 with
      | '.' :: t =>
        let ds := t.takeWhile isDigitB
        if ds.isEmpty then none else some (ds, t.dropWhile isDigitB)
      | _ => some ([], rest1)
    match fracStep with
    | none => none
    | some (fracD, rest2) =>
      let expStep : Option (Bool × List Char × List Char) := match rest2 with
        | 'e' :: t | 'E' :: t =>
          let (en, t') := match t with
            | '-' :: u => (true, u)
            | '+' :: u => (false, u)
            | u => (false, u)
          let ds := t'.takeWhile isDigitB
          if ds.isEmpty then none else some (en, ds, t'.dropWhile isDigitB)
        | _ => some (false, [], rest2)
      match expStep with
      | none => none
      | some (expNeg, expD, rest3) =>
        let mant : ℚ := (digitsToNat intD : ℚ) + (digitsToNat fracD : ℚ) / (10 : ℚ) ^ fracD.length
        let e := digitsToNat expD
        let mag : ℚ := if expNeg then mant / (10 : ℚ) ^ e else mant * (10 : ℚ) ^ e
        some (if neg then -mag else mag, rest3)

mutual

/-- Recursive-descent model of `JSON.parse`'s value grammar, fuelled to make
termination structural; the top-level wrapper supplies fuel exceeding the
input length, which the grammar (consuming at least one character per nesting
step) can never exhaust. -/
def parseValue : Nat → List Char → Option (Json × List Char)
  | 0, _ => none
  | fuel + 1, cs =>
    match skipWs cs with
    | 'n' :: 'u' :: 'l' :: 'l' :: rest => some (.null, rest)
    | 't' :: 'r' :: 'u' :: 'e' :: rest => some (.bool true, rest)
    | 'f' :: 'a' :: 'l' :: 's' :: 'e' :: rest => some (.bool false, rest)
    | '"' :: rest => (parseJString rest).map fun (s, r) => (.str (String.mk s), r)
    | '[' :: rest =>
      (match skipWs rest with
       | ']' :: r2 => some (.arr [], r2)
       | cs2 =>
         match parseValue fuel cs2 with
         | some (v, r2) => (parseArrTail fuel r2).map fun (vs, r3) => (.arr (v :: vs), r3)
         | none => none)
    | '{' :: rest =>
      (match skipWs rest with
       | '}' :: r2 => some (.obj [], r2)
       | cs2 =>
         match parseMember fuel cs2 with
         | some ((k, v), r2) =>
           (parseObjTail fuel r2).map fun (ms, r3) =>
             (.obj (ms.foldl (fun acc (kv : String × Json) => objInsert acc kv.1 kv.2) [(k, v)]), r3)
         | none => none)
    | cs' => (parseJNumber cs').map fun (q, r) => (.num q, r)

/-- Array elements after the first: `, value`* then `]`. -/
def parseArrTail : Nat → List Char → Option (List Json × List Char)
  | 0, _ => none
  | fuel + 1, cs =>
    match skipWs cs with
    | ']' :: r => some ([], r)
    | ',' :: r =>
      (match parseValue fuel r with
       | some (v, r2) => (parseArrTail fuel r2).map fun (vs, r3) => (v :: vs, r3)
       | none => none)
    | _ => none

/-- A single `"key" : value` member. -/
def parseMember : Nat → List Char → Option ((String × Json) × List Char)
  | 0, _ => none
  | fuel + 1, cs =>
    match skipWs cs with
    | '"' :: r =>
      (match parseJString r with
       | some (k, r2) =>
         (match skipWs r2 with
          | ':' :: r3 => (parseValue fuel r3).map fun (v, r4) => ((String.mk k, v), r4)
          | _ => none)
       | none => none)
    | _ => none

/-- Object members after the first: `, member`* then `}`. -/
def parseObjTail : Nat → List Char → Option (List (String × Json) × List Char)
  | 0, _ => none
  | fuel + 1, cs =>
    match skipWs cs with
    | '}' :: r => some ([], r)
    | ',' :: r =>
      (match parseMember fuel r with
       | some (kv, r2) => (parseObjTail fuel r2).map fun (ms, r3) => (kv :: ms, r3)
       | none => none)
    | _ => none

end

/-- Model of `JSON.parse(data)`: a single value, optionally surrounded by
whitespace; anything else (including the empty document) is a parse failure,
which the server handler turns into the empty-summary shape. -/
def jsonParse (s : String) : Option Json :=
  match parseValue (s.data.length + 1) s.data with
  | some (j, rest) => if (skipWs rest).isEmpty then some j else none
  | none => none

/-- Whitespace as recognized by JS `String.prototype.trim` and `parseFloat`
(ASCII subset: space, tab, LF, VT, FF, CR; the additional Unicode space
characters are immaterial to the verified claims). -/
def jsWs (c : Char) : Bool :=
  c == ' ' || c == '\t' || c == '\n' || c == Char.ofNat 11 || c == Char.ofNat 12 || c == '\r'

/-- JS `s.trim()`: drop leading and trailing whitespace. -/
def jsTrim (cs : List Char) : List Char :=
  (((cs.dropWhile jsWs).reverse.dropWhile jsWs)).reverse

/-- JS `hay.includes(needle)`: substring containment test. -/
def jsIncludes : List Char → List Char → Bool
  | [], needle => needle.isEmpty
  | hay@(_ :: t), needle => needle.isPrefixOf hay || jsIncludes t needle

/-- Model of JS `parseFloat`: skip leading whitespace, optional sign, decimal
digits with optional fraction and exponent, taking the longest valid prefix;
`none` models `NaN` (no digits at all).  The `Infinity` literal is not
modelled (it has no rational value; no claim exercises it). -/
def jsParseFloat (s : String) : Option ℚ :=
  let cs := s.data.dropWhile jsWs
  let (neg, cs1) := match cs with
    | '-' :: t => (true, t)
    | '+' :: t => (false, t)
    | _ => (false, cs)
  let intD := cs1.takeWhile isDigitB
  let rest1 := cs1.dropWhile isDigitB
  let (fracD, rest2) := match rest1 with
    | '.' :: t => (t.takeWhile isDigitB, t.dropWhile isDigitB)
    | _ => ([], rest1)
  if intD.isEmpty && fracD.isEmpty then none
  else
    let (expNeg, expD) := match rest2 with
      | 'e' :: t | 'E' :: t =>
        (match t with
         | '-' :: u => (true, u.takeWhile isDigitB)
         | '+' :: u => (false, u.takeWhile isDigitB)
         | u => (false, u.takeWhile isDigitB))
      | _ => (false, [])
    let mant : ℚ := (digitsToNat intD : ℚ) + (digitsToNat fracD : ℚ) / (10 : ℚ) ^ fracD.length
    let e := digitsToNat expD
    let mag : ℚ := if expNeg then mant / (10 : ℚ) ^ e else mant * (10 : ℚ) ^ e
    some (if neg then -mag else mag)

/-- Characters not matched by `.` in a JS regex without the `s` flag
(line terminators; U+2028/U+2029 are immaterial here). -/
def isLineTerm (c : Char) : Bool :=
  c == '\n' || c == '\r'

/-- The rest of the current line: what a greedy `.+` can span. -/
def restOfLine (cs : List Char) : List Char :=
  cs.takeWhile (fun c => !isLineTerm c)

/-- `dataString.match(/\[Result\] Class: (.+)/)` capture
(`src/server/server.js` line 87): at the leftmost position where the literal
`"[Result] Class: "` occurs with a nonempty rest-of-line after it, capture
that rest of line; positions where the rest of line is empty are skipped, as
the regex engine advances the start position on failure. -/
def findClassCap : List Char → Option (List Char)
  | [] => none
  | c :: rest =>
    match dropPfx "[Result] Class: ".data (c :: rest) with
    | some after =>
      let cap := restOfLine after
      if cap.isEmpty then findClassCap rest else some cap
    | none => findClassCap rest

/-- Greedy `(.+)%` on the current line: capture up to the last `%` of the
line, provided at least one character precedes it. -/
def capUpToLastPercent (line : List Char) : Option (List Char) :=
  let rev := line.reverse
  let k := (rev.takeWhile (fun c => c != '%')).length
  if k < rev.length then
    let i := line.length - k - 1
    if 1 ≤ i then some (line.take i) else none
  else none

/-- `dataString.match(/\[Confidence\] (.+)%/)` capture
(`src/server/server.js` line 88): at the leftmost position where the literal
`"[Confidence] "` occurs and the rest of the line contains a `%` with at
least one character between, capture greedily up to the last such `%`. -/
def findConfCap : List Char → Option (List Char)
  | [] => none
  | c :: rest =>
    match dropPfx "[Confidence] ".data (c :: rest) with
    | some after =>
      (match capUpToLastPercent (restOfLine after) with
       | some cap => some cap
       | none => findConfCap rest)
    | none => findConfCap rest

/-- Outcome of the spawned `python predict.py <path>` process: exit code
(`null` on signal-kill behaves as nonzero in `code !== 0` and is subsumed by
a nonzero value here) and the captured output streams. -/
structure ProcResult where
  exitCode : Int
  stdout : String
  stderr : String

/-- What an HTTP route invocation produced: status, JSON body, and the two
side effects the claims track — whether the upload middleware persisted a
file and whether an external process was spawned. -/
structure RouteOutcome where
  status : Nat
  body : Json
  wroteFile : Bool
  spawned : Bool

/-- The `result.confidence` field: `parseFloat(confMatch[1])`
(`src/server/server.js` line 95).  A `NaN` survives to `res.json`, which
serializes it as `null`. -/
def confJson (capC : List Char) : Json :=
  match jsParseFloat (String.mk capC) with
  | some q => .num q
  | none => .null

/-- The `POST /api/v1/analyze` route (`src/server/server.js` lines 54–104),
including the `upload.single('image')` middleware effect: with no file in the
`image` field nothing is written and the handler returns 400 before any
spawn; with a file, multer has written it, the external process runs to
completion, and the handler parses the two fixed patterns out of its stdout. -/
def analyzeRoute (file : Option String) (run : String → ProcResult) : RouteOutcome :=
  match file with
  | none =>
    { status := 400,
      body := .obj [("success", .bool false), ("error", .str "No image file uploaded")],
      wroteFile := false, spawned := false }
  | some f =>
    let pr := run f
    if pr.exitCode ≠ 0 then
      { status := 500,
        body := .obj [("success", .bool false), ("error", .str "Analysis execution failed")],
        wroteFile := true, spawned := true }
    else
      match findClassCap pr.stdout.data, findConfCap pr.stdout.data with
      | some cap, some capC =>
        { status := 200,
          body := .obj [("success", .bool true),
            ("result", .obj [
              ("label", .str (String.mk (jsTrim cap))),
              ("confidence", confJson capC),
              ("isFake", .bool (jsIncludes cap "Fake".data))])],
          wroteFile := true, spawned := true }
      | _, _ =>
        { status := 500,
          body := .obj [("success", .bool false), ("error", .str "Failed to parse analysis results")],
          wroteFile := true, spawned := true }

/-- Extract `body.result[k]` from a route outcome. -/
def respResultField (o : RouteOutcome) (k : String) : Option Json :=
  match jget o.body "result" with
  | some r => jget r k
  | none => none

/-- How reading a path-addressed backing file can go: `missing` (fails
`fs.existsSync`), `ioError` (exists but `fs.readFile` yields an error), or
`content` (read succeeds with the given text). -/
inductive ReadResult where
  | missing : ReadResult
  | ioError : ReadResult
  | content : String → ReadResult

/-- The default empty-summary shape
`{success:true, results:[], summary:{total_scanned:0}}`
(`src/server/server.js` lines 142 and 154). -/
def emptyScanShape : Json :=
  .obj [("success", .bool true), ("results", .arr []),
        ("summary", .obj [("total_scanned", .num 0)])]

/-- JS object-spread source entries: what `...jsonData` contributes to an
object literal.  Objects contribute their fields; arrays and strings their
index-keyed elements; primitives nothing. -/
def spreadFields : Json → List (String × Json)
  | .obj fs => fs
  | .arr xs => xs.enum.map fun (i, v) => (Nat.repr i, v)
  | .str s => s.data.enum.map fun (i, c) => (Nat.repr i, Json.str (String.mk [c]))
  | _ => []

/-- Build a JS object literal from its entries in evaluation order:
a duplicate key overwrites the value but keeps the first position. -/
def buildObj (pairs : List (String × Json)) : List (String × Json) :=
  pairs.foldl (fun acc (kv : String × Json) => objInsert acc kv.1 kv.2) []

/-- The `GET /api/v1/scan-results` handler (`src/server/server.js`
lines 139–157): a missing file short-circuits to the empty-summary shape; a
read error is a 500; readable content is `JSON.parse`d, the parsed document
spread into `{success:true, ...jsonData}` on success, and any parse failure
degrades to the same empty-summary shape. -/
def scanResultsHandler : ReadResult → Nat × Json
  | .missing => (200, emptyScanShape)
  | .ioError => (500, .obj [("success", .bool false), ("error", .str "Failed to load results")])
  | .content s =>
    match jsonParse s with
    | some j => (200, .obj (buildObj (("success", .bool true) :: spreadFields j)))
    | none => (200, emptyScanShape)

/-- Split on `'\n'`, keeping empty segments, as JS `data.split('\n')`. -/
def splitOnNl : List Char → List (List Char)
  | [] => [[]]
  | '\n' :: t => [] :: splitOnNl t
  | c :: t =>
    match splitOnNl t with
    | h :: r => (c :: h) :: r
    | [] => [[c]]

/-- The `GET /api/v1/websites` handler (`src/server/server.js` lines
126–136): there is no existence pre-check, so a missing file surfaces as the
same `fs.readFile` error as any other read failure — a 500; content is split
into trimmed nonempty lines. -/
def websitesHandler : ReadResult → Nat × Json
  | .missing => (500, .obj [("success", .bool false), ("error", .str "Failed to load website list")])
  | .ioError => (500, .obj [("success", .bool false), ("error", .str "Failed to load website list")])
  | .content s =>
    let sites := ((splitOnNl s.data).map jsTrim).filter fun l => l.length > 0
    (200, .obj [("success", .bool true),
                ("websites", .arr (sites.map fun l => Json.str (String.mk l)))])

/-- Whether the detached `python deepfake_scanner.py` process came up. -/
inductive SpawnOutcome where
  | started : SpawnOutcome
  | failed : String → SpawnOutcome

/-- The `POST /api/v1/global-scan` handler (`src/server/server.js` lines
107–123): `spawn` returns synchronously (start-up failures surface only as a
later asynchronous `error` event, after the response has been sent), the
child is `unref`'d, and the 200 acknowledgement is issued unconditionally —
the response cannot depend on the spawn outcome. -/
def globalScanHandler (_outcome : SpawnOutcome) : Nat × Json :=
  (200, .obj [("success", .bool true),
              ("message", .str "Global deepfake scan initiated in background.")])

/-! ## Helper lemmas -/

theorem jlookup_objInsert (m : List (String × Json)) (k k' : String) (v : Json) :
    jlookup (objInsert m k v) k' = if k = k' then some v else jlookup m k' := by
  induction m with
  | nil => simp [objInsert, jlookup]
  | cons kv t ih =>
    obtain ⟨k0, v0⟩ := kv
    by_cases h0 : k0 = k
    · subst h0
      simp only [objInsert, if_pos rfl, jlookup]
      by_cases h1 : k0 = k' <;> simp [h1]
    · simp only [objInsert, if_neg h0, jlookup, ih]
      by_cases h1 : k0 = k' <;> by_cases h2 : k = k' <;> simp_all

theorem mergeStep_lookup_other (m : List (String × Json)) (r : Json) (k : String)
    (h : sourceKey r ≠ k) : jlookup (mergeStep m r) k = jlookup m k := by
  simp only [mergeStep]
  split
  · rw [jlookup_objInsert, if_neg h]
  · rfl

theorem mergeStep_fake_lookup (m : List (String × Json)) (r : Json)
    (h : isFakeRec r = true) : jlookup (mergeStep m r) (sourceKey r) = some r := by
  simp [mergeStep, h, jlookup_objInsert]

theorem mergeStep_nonfake_existing (m : List (String × Json)) (r : Json)
    (hf : isFakeRec r = false) (ht : truthyOpt (jlookup m (sourceKey r)) = true) :
    mergeStep m r = m := by
  simp [mergeStep, hf, ht]

theorem truthy_of_isFakeRec {r : Json} (h : isFakeRec r = true) : truthy r = true := by
  cases r <;> simp_all [isFakeRec, jget, truthy]

theorem isFakeRec_iff (r : Json) :
    isFakeRec r = true ↔ jget r "prediction" = some (.str "Fake") := by
  unfold isFakeRec
  cases h : jget r "prediction" with
  | none => simp
  | some v => cases v <;> simp

theorem foldl_mergeStep_fake (l : List Json) :
    ∀ (m : List (String × Json)) (k : String),
      (∃ r, jlookup m k = some r ∧ isFakeRec r = true) →
      ∃ r, jlookup (l.foldl mergeStep m) k = some r ∧ isFakeRec r = true := by
  induction l with
  | nil => intro m k h; exact h
  | cons x t ih =>
    intro m k h
    obtain ⟨r, hr, hf⟩ := h
    apply ih
    by_cases hk : sourceKey x = k
    · subst hk
      by_cases hfx : isFakeRec x = true
      · exact ⟨x, mergeStep_fake_lookup m x hfx, hfx⟩
      · rw [mergeStep_nonfake_existing m x (by simpa using hfx)
          (by rw [hr]; exact truthy_of_isFakeRec hf)]
        exact ⟨r, hr, hf⟩
    · rw [mergeStep_lookup_other m x k hk]
      exact ⟨r, hr, hf⟩

/-! ## Claim C1 -/

/-- C1: in every results set merged by the client poller, if the set contains a
"Real" record and a later "Fake" record whose `source_url`s normalize to the
same key, the merged map entry for that key carries prediction "Fake"
(the last "Fake" record written for that key); moreover a "Fake" verdict
overwrites any existing entry for its key, and a non-"Fake" verdict never
overwrites an existing entry for its key. -/
theorem merge_prefers_fake_verdicts :
    (∀ (l1 l2 l3 : List Json) (real fake : Json),
      sourceKey real = sourceKey fake →
      jget real "prediction" = some (.str "Real") →
      jget fake "prediction" = some (.str "Fake") →
      ∃ r, jlookup (mergeResults (l1 ++ real :: l2 ++ fake :: l3)) (sourceKey fake) = some r ∧
        jget r "prediction" = some (.str "Fake"))
  ∧ (∀ (m : List (String × Json)) (r : Json),
      jget r "prediction" = some (.str "Fake") →
      jlookup (mergeStep m r) (sourceKey r) = some r)
  ∧ (∀ (m : List (String × Json)) (r : Json),
      jget r "prediction" ≠ some (.str "Fake") →
      truthyOpt (jlookup m (sourceKey r)) = true →
      mergeStep m r = m) := by
  refine ⟨?_, ?_, ?_⟩
  · intro l1 l2 l3 real fake _hk _hreal hfake
    have hfx : isFakeRec fake = true := (isFakeRec_iff fake).mpr hfake
    unfold mergeResults
    rw [show l1 ++ real :: l2 ++ fake :: l3 = (l1 ++ real :: l2) ++ fake :: l3 by simp,
      List.foldl_append, List.foldl_cons]
    have start : ∃ r, jlookup (mergeStep ((l1 ++ real :: l2).foldl mergeStep []) fake)
        (sourceKey fake) = some r ∧ isFakeRec r = true :=
      ⟨fake, mergeStep_fake_lookup _ fake hfx, hfx⟩
    obtain ⟨r, hr, hf⟩ := foldl_mergeStep_fake l3 _ _ start
    exact ⟨r, hr, (isFakeRec_iff r).mp hf⟩
  · intro m r h
    exact mergeStep_fake_lookup m r ((isFakeRec_iff r).mpr h)
  · intro m r h ht
    refine mergeStep_nonfake_existing m r ?_ ht
    cases hfx : isFakeRec r with
    | false => rfl
    | true => exact absurd ((isFakeRec_iff r).mp hfx) h

/-- Witness for C1 at a concrete results set: a "Real" record for
`http://a.com` followed by a "Fake" record for `https://a.com/`
(same normalized key `a.com`). -/
theorem merge_prefers_fake_verdicts_witness :
    ∃ r, jlookup (mergeResults ([] ++
        Json.obj [("source_url", .str "http://a.com"), ("prediction", .str "Real")] :: [] ++
        Json.obj [("source_url", .str "https://a.com/"), ("prediction", .str "Fake")] :: []))
      (sourceKey (Json.obj [("source_url", .str "https://a.com/"), ("prediction", .str "Fake")]))
        = some r ∧ jget r "prediction" = some (.str "Fake") :=
  merge_prefers_fake_verdicts.1 [] [] [] _ _ rfl rfl rfl

theorem dropPfx_eq_some_iff {p x y : List Char} : dropPfx p x = some y ↔ x = p ++ y := by
  induction p generalizing x with
  | nil => simp [dropPfx]
  | cons a t ih =>
    cases x with
    | nil => simp [dropPfx]
    | cons b bs =>
      by_cases hab : a = b
      · subst hab; simp [dropPfx, ih]
      · simp only [dropPfx, if_neg hab, List.cons_append, List.cons.injEq]
        constructor
        · intro h; exact Option.noConfusion h
        · intro h; exact absurd h.1.symm hab

theorem dropPfx_eq_none_iff {p x : List Char} : dropPfx p x = none ↔ ∀ y, x ≠ p ++ y := by
  constructor
  · intro h y hxy
    have hs : dropPfx p x = some y := dropPfx_eq_some_iff.mpr hxy
    rw [h] at hs
    exact Option.noConfusion hs
  · intro h
    cases hd : dropPfx p x with
    | none => rfl
    | some y => exact absurd (dropPfx_eq_some_iff.mp hd) (h y)

theorem stripSlash_append (p : List Char) {rc : List Char} (h : rc ≠ []) :
    stripSlashChars (p ++ rc) = p ++ stripSlashChars rc := by
  unfold stripSlashChars
  rw [List.getLast?_append, Option.or_of_isSome (List.getLast?_isSome.mpr h)]
  by_cases hl : rc.getLast? = some '/'
  · simp [hl, List.dropLast_append_of_ne_nil _ h]
  · simp [hl]

theorem stripSchemeWww_httpWww (x : List Char) :
    stripSchemeWww ("http://www.".data ++ x) = x := rfl

theorem stripSchemeWww_httpsWww (x : List Char) :
    stripSchemeWww ("https://www.".data ++ x) = x := rfl

theorem stripSchemeWww_http_noWww (x : List Char) (h : dropPfx "www.".data x = none) :
    stripSchemeWww ("http://".data ++ x) = x := by
  have e1 : dropPfx "https://www.".data ("http://".data ++ x) = none := rfl
  have e2 : dropPfx "http://www.".data ("http://".data ++ x) = dropPfx "www.".data x := rfl
  have e3 : dropPfx "https://".data ("http://".data ++ x) = none := rfl
  have e4 : dropPfx "http://".data ("http://".data ++ x) = some x := rfl
  simp only [stripSchemeWww, e1, e2, e3, e4, h]

theorem stripSchemeWww_https_noWww (x : List Char) (h : dropPfx "www.".data x = none) :
    stripSchemeWww ("https://".data ++ x) = x := by
  have f1 : dropPfx "https://www.".data ("https://".data ++ x) = dropPfx "www.".data x := rfl
  have f2 : dropPfx "http://www.".data ("https://".data ++ x) = none := rfl
  have f3 : dropPfx "https://".data ("https://".data ++ x) = some x := rfl
  simp only [stripSchemeWww, f1, f2, f3, h]

theorem stripSchemeWww_scheme_eq (x : List Char) :
    stripSchemeWww ("http://".data ++ x) = stripSchemeWww ("https://".data ++ x) := by
  have e1 : dropPfx "https://www.".data ("http://".data ++ x) = none := rfl
  have e2 : dropPfx "http://www.".data ("http://".data ++ x) = dropPfx "www.".data x := rfl
  have f1 : dropPfx "https://www.".data ("https://".data ++ x) = dropPfx "www.".data x := rfl
  cases hw : dropPfx "www.".data x with
  | some r => simp only [stripSchemeWww, e1, e2, f1, hw]
  | none => rw [stripSchemeWww_http_noWww x hw, stripSchemeWww_https_noWww x hw]

theorem data_ne_nil_of_ne_empty {s : String} (h : s ≠ "") : s.data ≠ [] := by
  intro hd
  exact h (by cases s; simp_all)

theorem str_append_ne_empty (p r : String) (h : p.data ≠ []) : p ++ r ≠ "" := by
  intro he
  have hd : (p ++ r).data = [] := by rw [he]
  rw [String.data_append] at hd
  exact h (List.append_eq_nil.mp hd).1

theorem normalizeUrl_eq_of_ne {s : String} (h : s ≠ "") :
    normalizeUrl s = String.mk (stripSchemeWww (stripSlashChars s.data)) := by
  rw [normalizeUrl, if_neg h]

/-! ## Claim C2 -/

/-- C2 counterexample: `"www.a.com"` and `"a.com"` differ only by a leading
`"www."`, yet `normalizeUrl` maps them to different keys — the regex strips
`www.` only when it follows an `http://`/`https://` scheme. -/
theorem normalizeUrl_www_counterexample :
    normalizeUrl "www.a.com" = "www.a.com" ∧ normalizeUrl "a.com" = "a.com" ∧
    normalizeUrl "www.a.com" ≠ normalizeUrl "a.com" := by
  refine ⟨rfl, rfl, ?_⟩
  decide

/-- C2 amended: `normalizeUrl` identifies site identifiers that differ only by
a trailing slash (added to an identifier not already ending in one), or only
by the `http` vs `https` scheme (nonempty remainder), or only by a `"www."`
written directly after the scheme (when the remainder, after the trailing
slash strip, does not itself start with `"www."`); a bare leading `"www."`
without a scheme is NOT stripped (see the counterexample). -/
theorem normalizeUrl_amended_equivalences :
    (∀ s : String, s.data.getLast? ≠ some '/' →
      normalizeUrl (s ++ "/") = normalizeUrl s)
  ∧ (∀ r : String, r ≠ "" →
      normalizeUrl ("http://" ++ r) = normalizeUrl ("https://" ++ r))
  ∧ (∀ r : String, r ≠ "" → (∀ t : List Char, stripSlashChars r.data ≠ "www.".data ++ t) →
      normalizeUrl ("http://www." ++ r) = normalizeUrl ("http://" ++ r)
      ∧ normalizeUrl ("https://www." ++ r) = normalizeUrl ("https://" ++ r)) := by
  refine ⟨?_, ?_, ?_⟩
  · intro s h
    by_cases hs : s = ""
    · subst hs; rfl
    · rw [normalizeUrl_eq_of_ne (str_append_ne_empty s "/" (data_ne_nil_of_ne_empty hs)),
        normalizeUrl_eq_of_ne hs]
      congr 1
      rw [String.data_append]
      have h1 : stripSlashChars (s.data ++ ("/" : String).data) = s.data := by
        unfold stripSlashChars
        rw [show ("/" : String).data = ['/'] from rfl, List.getLast?_concat]
        simp
      rw [h1]
      unfold stripSlashChars
      rw [if_neg h]
  · intro r hr
    have hrc := data_ne_nil_of_ne_empty hr
    rw [normalizeUrl_eq_of_ne (str_append_ne_empty "http://" r (by decide)),
      normalizeUrl_eq_of_ne (str_append_ne_empty "https://" r (by decide))]
    congr 1
    rw [String.data_append, String.data_append,
      stripSlash_append "http://".data hrc, stripSlash_append "https://".data hrc]
    exact stripSchemeWww_scheme_eq _
  · intro r hr hw
    have hrc := data_ne_nil_of_ne_empty hr
    have hwn : dropPfx "www.".data (stripSlashChars r.data) = none :=
      dropPfx_eq_none_iff.mpr hw
    constructor
    · rw [normalizeUrl_eq_of_ne (str_append_ne_empty "http://www." r (by decide)),
        normalizeUrl_eq_of_ne (str_append_ne_empty "http://" r (by decide))]
      congr 1
      rw [String.data_append, String.data_append,
        stripSlash_append "http://www.".data hrc, stripSlash_append "http://".data hrc,
        stripSchemeWww_httpWww, stripSchemeWww_http_noWww _ hwn]
    · rw [normalizeUrl_eq_of_ne (str_append_ne_empty "https://www." r (by decide)),
        normalizeUrl_eq_of_ne (str_append_ne_empty "https://" r (by decide))]
      congr 1
      rw [String.data_append, String.data_append,
        stripSlash_append "https://www.".data hrc, stripSlash_append "https://".data hrc,
        stripSchemeWww_httpsWww, stripSchemeWww_https_noWww _ hwn]

/-- Witness for C2 (amended) at concrete inputs: the scheme-equivalence part
applied to `a.com`, and the scheme-prefixed `www.` part applied to `a.com`. -/
theorem normalizeUrl_amended_witness :
    normalizeUrl ("http://" ++ "a.com") = normalizeUrl ("https://" ++ "a.com") ∧
    (normalizeUrl ("http://www." ++ "a.com") = normalizeUrl ("http://" ++ "a.com")
      ∧ normalizeUrl ("https://www." ++ "a.com") = normalizeUrl ("https://" ++ "a.com")) :=
  ⟨normalizeUrl_amended_equivalences.2.1 "a.com" (by decide),
   normalizeUrl_amended_equivalences.2.2 "a.com" (by decide) (dropPfx_eq_none_iff.mp rfl)⟩

theorem jsIncludes_iff_contains (hay needle : List Char) :
    jsIncludes hay needle = true ↔ needle <:+: hay := by
  induction hay with
  | nil => simp [jsIncludes, List.isEmpty_iff]
  | cons a t ih => simp [jsIncludes, List.isPrefixOf_iff_prefix, ih, List.infix_cons_iff]

theorem infix_dropWhile_of_not_pred {needle : List Char} (p : Char → Bool)
    (hne : needle ≠ []) (hq : ∀ c ∈ needle, p c = false) :
    ∀ hay : List Char, needle <:+: hay → needle <:+: hay.dropWhile p := by
  intro hay
  induction hay with
  | nil => exact fun h => h
  | cons a t ih =>
    intro h
    rw [List.dropWhile_cons]
    by_cases hp : p a = true
    · rw [if_pos hp]
      rcases List.infix_cons_iff.mp h with hpre | hinf
      · cases needle with
        | nil => exact absurd rfl hne
        | cons n0 nt =>
          obtain ⟨t', ht'⟩ := hpre
          have hn0 : n0 = a := by
            have := congrArg (·.head?) ht'
            simpa using this
          have := hq n0 (by simp)
          rw [hn0, hp] at this
          exact Bool.noConfusion this
      · exact ih hinf
    · rw [if_neg hp]
      exact h

theorem infix_jsTrim_iff {needle : List Char} (hne : needle ≠ [])
    (hq : ∀ c ∈ needle, jsWs c = false) (cs : List Char) :
    needle <:+: jsTrim cs ↔ needle <:+: cs := by
  constructor
  · intro h
    have h1 : jsTrim cs <:+: (cs.dropWhile jsWs).reverse.reverse := by
      unfold jsTrim
      rw [List.reverse_infix]
      exact (List.dropWhile_suffix jsWs).isInfix
    rw [List.reverse_reverse] at h1
    exact h.trans (h1.trans (List.dropWhile_suffix jsWs).isInfix)
  · intro h
    have h1 : needle <:+: cs.dropWhile jsWs :=
      infix_dropWhile_of_not_pred jsWs hne hq cs h
    have h2 : needle.reverse <:+: (cs.dropWhile jsWs).reverse := by
      rw [List.reverse_infix]; exact h1
    have hner : needle.reverse ≠ [] := by simpa using hne
    have hqr : ∀ c ∈ needle.reverse, jsWs c = false := by
      intro c hc; exact hq c (List.mem_reverse.mp hc)
    have h3 : needle.reverse <:+: (cs.dropWhile jsWs).reverse.dropWhile jsWs :=
      infix_dropWhile_of_not_pred jsWs hner hqr _ h2
    unfold jsTrim
    rw [show needle = needle.reverse.reverse from (List.reverse_reverse needle).symm,
      List.reverse_infix]
    exact h3

theorem jsIncludes_jsTrim_fake (cap : List Char) :
    jsIncludes (jsTrim cap) "Fake".data = jsIncludes cap "Fake".data := by
  have hne : "Fake".data ≠ [] := by decide
  have hq : ∀ c ∈ "Fake".data, jsWs c = false := by decide
  have hiff := infix_jsTrim_iff hne hq cap
  cases hb : jsIncludes cap "Fake".data with
  | false =>
    cases ht : jsIncludes (jsTrim cap) "Fake".data with
    | false => rfl
    | true =>
      have := hiff.mp ((jsIncludes_iff_contains _ _).mp ht)
      rw [← jsIncludes_iff_contains] at this
      rw [hb] at this
      exact this.symm
  | true =>
    cases ht : jsIncludes (jsTrim cap) "Fake".data with
    | false =>
      have := hiff.mpr ((jsIncludes_iff_contains _ _).mp hb)
      rw [← jsIncludes_iff_contains] at this
      rw [ht] at this
      exact this
    | true => rfl

/-! ## Claim C3 -/

/-- C3 counterexample: an analyze run whose external process exits 0 with
stdout matching both patterns, yet whose success response carries
`confidence = 200 ∉ [0,100]` — the handler applies `parseFloat` to the
captured text with no clamping. -/
theorem analyze_confidence_unclamped_counterexample :
    respResultField (analyzeRoute (some "up.png")
        (fun _ => ⟨0, "[Result] Class: Fake\n[Confidence] 200%", ""⟩)) "confidence"
      = some (.num 200) ∧ ¬ ((200 : ℚ) ≤ 100) := by
  constructor
  · have hq : jsParseFloat (String.mk "200".data) = some 200 := by
      simp [jsParseFloat, isDigitB, digitsToNat, jsWs]
    have e : respResultField (analyzeRoute (some "up.png")
        (fun _ => ⟨0, "[Result] Class: Fake\n[Confidence] 200%", ""⟩)) "confidence"
        = some (confJson "200".data) := rfl
    rw [e, confJson, hq]
  · norm_num

/-- C3 amended: for every analyze request whose external process exits zero
and whose stdout matches both patterns, the success response has status 200,
its `label` is the trimmed class capture, and `isFake` equals
`label.includes("Fake")`; the `confidence` field is the unclamped
`parseFloat` of the confidence capture and need not lie in `[0,100]`. -/
theorem analyze_isFake_matches_label (f : String) (run : String → ProcResult)
    (cap capC : List Char)
    (h0 : (run f).exitCode = 0)
    (h1 : findClassCap (run f).stdout.data = some cap)
    (h2 : findConfCap (run f).stdout.data = some capC) :
    (analyzeRoute (some f) run).status = 200 ∧
    respResultField (analyzeRoute (some f) run) "label"
      = some (.str (String.mk (jsTrim cap))) ∧
    respResultField (analyzeRoute (some f) run) "isFake"
      = some (.bool (jsIncludes (jsTrim cap) "Fake".data)) ∧
    respResultField (analyzeRoute (some f) run) "confidence"
      = some (confJson capC) := by
  have e : analyzeRoute (some f) run =
      { status := 200,
        body := .obj [("success", .bool true),
          ("result", .obj [("label", .str (String.mk (jsTrim cap))),
                           ("confidence", confJson capC),
                           ("isFake", .bool (jsIncludes cap "Fake".data))])],
        wroteFile := true, spawned := true } := by
    simp [analyzeRoute, h0, h1, h2]
  rw [e]
  refine ⟨rfl, rfl, ?_, rfl⟩
  rw [jsIncludes_jsTrim_fake]
  rfl

/-- Witness for C3 (amended) at a concrete run: exit 0 with stdout
`"[Result] Class: Fake\n[Confidence] 97.2%"`. -/
theorem analyze_isFake_matches_label_witness :
    (analyzeRoute (some "up.png")
        (fun _ => ⟨0, "[Result] Class: Fake\n[Confidence] 97.2%", ""⟩)).status = 200 ∧
    respResultField (analyzeRoute (some "up.png")
        (fun _ => ⟨0, "[Result] Class: Fake\n[Confidence] 97.2%", ""⟩)) "label"
      = some (.str (String.mk (jsTrim "Fake".data))) ∧
    respResultField (analyzeRoute (some "up.png")
        (fun _ => ⟨0, "[Result] Class: Fake\n[Confidence] 97.2%", ""⟩)) "isFake"
      = some (.bool (jsIncludes (jsTrim "Fake".data) "Fake".data)) ∧
    respResultField (analyzeRoute (some "up.png")
        (fun _ => ⟨0, "[Result] Class: Fake\n[Confidence] 97.2%", ""⟩)) "confidence"
      = some (confJson "97.2".data) :=
  analyze_isFake_matches_label "up.png" _ "Fake".data "97.2".data rfl rfl rfl

/-! ## Claim C4 -/

/-- C4: whenever the backing results file is read but its contents do not
parse as JSON (`jsonParse` fails — including the empty document), the
scan-results endpoint returns the empty-summary success shape with status
200; and on the read-succeeded path the status is 200 for every content
whatsoever — the handler never produces a 500 and never throws there. -/
theorem scan_results_invalid_json_empty_shape :
    (∀ s : String, jsonParse s = none →
      scanResultsHandler (.content s) = (200, emptyScanShape))
  ∧ (∀ s : String, (scanResultsHandler (.content s)).1 = 200) := by
  constructor
  · intro s h
    simp [scanResultsHandler, h]
  · intro s
    cases h : jsonParse s <;> simp [scanResultsHandler, h]

/-- Witness for C4 at the empty document, which fails to parse. -/
theorem scan_results_invalid_json_witness :
    jsonParse "" = none ∧ scanResultsHandler (.content "") = (200, emptyScanShape) :=
  ⟨rfl, scan_results_invalid_json_empty_shape.1 "" rfl⟩

/-! ## Claim C5 -/

/-- C5 counterexample: when the results file exists but reading it fails,
the scan-results endpoint responds 500 with a failure body — not the empty
success shape the claim asserts. -/
theorem scan_results_read_error_counterexample :
    scanResultsHandler .ioError =
      (500, .obj [("success", .bool false), ("error", .str "Failed to load results")]) := rfl

/-- C5 amended: a storage-read error yields a 500 from the results endpoint
just as from the website-list endpoint; the silent downgrade to the empty
success shape applies only to a missing results file and to unparseable
contents, not to read errors. -/
theorem read_errors_yield_500_both_endpoints :
    scanResultsHandler .ioError =
      (500, .obj [("success", .bool false), ("error", .str "Failed to load results")])
  ∧ websitesHandler .ioError =
      (500, .obj [("success", .bool false), ("error", .str "Failed to load website list")])
  ∧ scanResultsHandler .missing = (200, emptyScanShape) :=
  ⟨rfl, rfl, rfl⟩

/-! ## Claim C6 -/

/-- C6: when the backing results file does not exist, the scan-results
endpoint responds 200 with exactly
`{success:true, results:[], summary:{total_scanned:0}}`. -/
theorem scan_results_missing_file_empty_shape :
    scanResultsHandler .missing =
      (200, .obj [("success", .bool true), ("results", .arr []),
                  ("summary", .obj [("total_scanned", .num 0)])]) := rfl

/-! ## Claim C7 -/

/-- C7: with a non-empty website list, the progress percentage is exactly
`total_scanned / website_count * 100` with no clamping; in particular it is
50 for two websites and one scanned, and values over 100 occur (one website,
two scanned → 200). -/
theorem progress_percentage_formula :
    (∀ (websites : List String) (total : ℚ), websites ≠ [] →
      progressPercentage websites total = total / (websites.length : ℚ) * 100)
  ∧ progressPercentage ["a.com", "b.com"] 1 = 50
  ∧ progressPercentage ["a.com"] 2 = 200 := by
  refine ⟨?_, ?_, ?_⟩
  · intro ws t h
    rw [progressPercentage, if_pos (by simpa using List.length_pos.mpr h)]
  · norm_num [progressPercentage]
  · norm_num [progressPercentage]

/-- Witness for C7 at the concrete list `["a.com","b.com"]` and total 1. -/
theorem progress_percentage_witness :
    progressPercentage ["a.com", "b.com"] 1
      = 1 / (((["a.com", "b.com"] : List String).length : ℚ)) * 100 :=
  progress_percentage_formula.1 ["a.com", "b.com"] 1 (by decide)

/-! ## Claim C8 -/

/-- C8: the global-scan handler acknowledges with status 200 and
`{success:true, message}` for every spawn outcome — `spawn` returns
synchronously and its failures surface only as a later asynchronous event,
after the response has been sent, so the response cannot depend on them. -/
theorem global_scan_always_succeeds :
    ∀ outcome : SpawnOutcome, globalScanHandler outcome =
      (200, .obj [("success", .bool true),
                  ("message", .str "Global deepfake scan initiated in background.")]) :=
  fun _ => rfl

/-! ## Claim C9 -/

/-- C9: an analyze request with no file in the `image` field gets status 400
with body exactly `{success:false, error:"No image file uploaded"}`,
regardless of what the external process would do; nothing is written to disk
and no process is spawned. -/
theorem analyze_missing_file_400 :
    ∀ run : String → ProcResult, analyzeRoute none run =
      { status := 400,
        body := .obj [("success", .bool false), ("error", .str "No image file uploaded")],
        wroteFile := false, spawned := false } :=
  fun _ => rfl

/-! ## Claim C10 -/

/-- C10: a poll tick leaves `scanResults` and `stats` unchanged whenever the
parsed body's `success` field is falsy or its `all_results` field is falsy
(absent included); in particular the server's own missing-file default
shape — whose list key is `results`, not `all_results` — never overwrites
the client state. -/
theorem poll_state_unchanged_without_all_results :
    (∀ (st : ClientState) (data : Json), truthyOpt (jget data "success") = false →
      pollStep st data = st)
  ∧ (∀ (st : ClientState) (data : Json), truthyOpt (jget data "all_results") = false →
      pollStep st data = st)
  ∧ (∀ st : ClientState, pollStep st (scanResultsHandler .missing).2 = st) := by
  have h2 : ∀ (st : ClientState) (data : Json),
      truthyOpt (jget data "all_results") = false → pollStep st data = st := by
    intro st data h
    simp [pollStep, h]
  refine ⟨?_, h2, ?_⟩
  · intro st data h
    simp [pollStep, h]
  · intro st
    exact h2 st _ rfl

/-- Witness for C10 at a concrete state and a body with truthy `success` but
no `all_results` field. -/
theorem poll_state_unchanged_witness :
    pollStep ⟨[], 0, 0⟩ (.obj [("success", .bool true)]) = ⟨[], 0, 0⟩ :=
  poll_state_unchanged_without_all_results.2.1 ⟨[], 0, 0⟩ (.obj [("success", .bool true)]) rfl
